import Mathlib

/-!
# WeakRef finalization protocol (`NativeScript/runtime/WeakRef.cpp`)

A shallow embedding of the `tns::WeakRef` class of the NativeScript V8 iOS runtime.

The isolate is an explicit state: a JavaScript heap (own properties, the private
`"target"` value of each object, the native callback behind each function object),
a native heap (the `Persistent<Object>` records and the `CallbackState` records
allocated with `new`), and the per-isolate function cache.  Every C++ function
of the source file except `Init` (which only registers the constructor on the
global object) is a Lean function over that state, statement by statement.
Native memory errors (an access through a freed or null pointer, a failed
`tns::Assert`) are results of type `Fault`; `delete` is counted per record so that
a double free is visible in the state.  The collector delivers a finalizer only to
a binding with a pending weak registration and uses that registration up, so a
binding gets a further delivery only if its handler calls `SetWeak` again.
-/

namespace tns

/-- Identity of a JavaScript heap object. -/
abbrev ObjId := Nat

/-- Address of a natively allocated record (`nullptr` is `none` of `Option Addr`). -/
abbrev Addr := Nat

/-- JavaScript values as far as `WeakRef.cpp` distinguishes them. -/
inductive Value where
  | undefined
  | null
  | boolean (b : Bool)
  | number (n : Int)
  | string (s : String)
  | object (id : ObjId)
  deriving DecidableEq, Repr

/-- `Value::IsObject()`. -/
def Value.IsObject : Value → Bool
  | .object _ => true
  | _ => false

/-- The two weak callbacks the file registers with `SetWeak`. -/
inductive WeakCallback where
  | WeakTargetCallback
  | WeakHolderCallback
  deriving DecidableEq, Repr

/-- The native functions the file exposes to scripts. -/
inductive NativeCallback where
  | ConstructorCallback
  | GetCallback
  | ClearCallback
  deriving DecidableEq, Repr

/-- A `Persistent<Object>` record allocated with `new`.
`object` is the referent (`none` once the handle has been `Reset`), `weak` the
pending `SetWeak` registration (callback and parameter), `frees` the number of
times the record has been `delete`d. -/
structure Persistent where
  object : Option ObjId
  weak : Option (WeakCallback × Addr)
  frees : Nat
  deriving DecidableEq, Repr

/-- The `CallbackState` record shared by the two weak callbacks: the two
binding pointers, and the number of times the record has been `delete`d. -/
structure CallbackState where
  target_ : Option Addr
  holder_ : Option Addr
  frees : Nat
  deriving DecidableEq, Repr

/-- Native errors: these abort the process instead of raising a script exception. -/
inductive Fault where
  | assertionFailed
  | nullDereference
  | wildPointer
  | useAfterFree
  | emptyHandle
  | badCast
  deriving DecidableEq, Repr

/-- How a native function returns to its script caller. -/
inductive Completion where
  | returned (v : Value)
  | threw (message : String)
  deriving DecidableEq, Repr

/-- The part of `FunctionCallbackInfo<Value>` the callbacks read. -/
structure FunctionCallbackInfo where
  IsConstructCall : Bool
  This : ObjId
  args : List Value
  deriving DecidableEq, Repr

/-- `info.Length()`. -/
def FunctionCallbackInfo.Length (info : FunctionCallbackInfo) : Nat :=
  info.args.length

/-- `info[i]`: V8 yields `undefined` past the last argument. -/
def FunctionCallbackInfo.arg (info : FunctionCallbackInfo) (i : Nat) : Value :=
  info.args.getD i Value.undefined

/-- The isolate: JavaScript heap, native heap and the function cache of `Caches`. -/
structure Isolate where
  /-- next fresh JavaScript object identity -/
  nextObject : ObjId
  /-- next fresh native address -/
  nextAddr : Addr
  /-- own properties of each object -/
  properties : ObjId → String → Option Value
  /-- private value `"target"` of each object: the pointer wrapped by the
  `External` stored there (`some none` wraps `nullptr`), `none` when unset -/
  privateTarget : ObjId → Option (Option Addr)
  /-- native callback behind each function object -/
  functions : ObjId → Option NativeCallback
  /-- the `Persistent<Object>` records by address -/
  persistents : Addr → Option Persistent
  /-- the `CallbackState` records by address -/
  callbackStates : Addr → Option CallbackState
  /-- cache entry `WeakRefGetterFunc` -/
  WeakRefGetterFunc : Option ObjId
  /-- cache entry `WeakRefClearFunc` -/
  WeakRefClearFunc : Option ObjId

/-- An isolate in which nothing has been allocated yet. -/
def Isolate.empty : Isolate where
  nextObject := 0
  nextAddr := 0
  properties := fun _ _ => none
  privateTarget := fun _ => none
  functions := fun _ => none
  persistents := fun _ => none
  callbackStates := fun _ => none
  WeakRefGetterFunc := none
  WeakRefClearFunc := none

/-! ## Collaborator primitives -/

/-- Modelled from the spec: `tns::Assert` (`Helpers.h`), which the spec describes as
asserting rather than recovering; a failed assertion is a native fault. -/
def Assert (condition : Bool) : Except Fault Unit :=
  if condition then .ok () else .error .assertionFailed

/-- Dereference of a possibly null pointer. -/
def nonNull (p : Option Addr) : Except Fault Addr :=
  match p with
  | some a => .ok a
  | none => .error .nullDereference

/-- `v8::Object::New(isolate)`: a fresh plain object. -/
def Isolate.ObjectNew (w : Isolate) : Isolate × ObjId :=
  ({ w with nextObject := w.nextObject + 1 }, w.nextObject)

/-- `FunctionTemplate::New(isolate, cb)->GetFunction(context)`: a fresh function
object backed by the native callback `cb`. -/
def Isolate.FunctionNew (w : Isolate) (cb : NativeCallback) : Isolate × ObjId :=
  ({ w with nextObject := w.nextObject + 1,
            functions := Function.update w.functions w.nextObject (some cb) },
   w.nextObject)

/-- `obj->Set(context, key, value)` on a plain object. -/
def Isolate.Set (w : Isolate) (obj : ObjId) (key : String) (value : Value) : Isolate :=
  { w with properties :=
      Function.update w.properties obj (Function.update (w.properties obj) key (some value)) }

/-- Modelled from the spec: `tns::SetPrivateValue(obj, "target", External::New(isolate, ptr))`
(`Helpers.h`), the hidden per-object slot store `setHidden`; writing through an
empty handle is a fault. -/
def Isolate.SetPrivateValue (w : Isolate) (obj : Option ObjId) (ptr : Option Addr) :
    Except Fault Isolate :=
  match obj with
  | some o => pure { w with privateTarget := Function.update w.privateTarget o (some ptr) }
  | none => .error .emptyHandle

/-- Modelled from the spec: `tns::GetPrivateValue(obj, "target")` followed by
`As<External>()->Value()` (`Helpers.h`), the hidden per-object slot store
`getHidden`; reading an unset slot or through an empty handle is a fault. -/
def Isolate.GetPrivateValue (w : Isolate) (obj : Option ObjId) : Except Fault (Option Addr) :=
  match obj with
  | some o =>
    match w.privateTarget o with
    | some ptr => .ok ptr
    | none => .error .emptyHandle
  | none => .error .emptyHandle

/-- `new Persistent<Object>(isolate, obj)`: a fresh strong handle. -/
def Isolate.newPersistent (w : Isolate) (obj : ObjId) : Isolate × Addr :=
  ({ w with nextAddr := w.nextAddr + 1,
            persistents := Function.update w.persistents w.nextAddr
              (some { object := some obj, weak := none, frees := 0 }) },
   w.nextAddr)

/-- `new CallbackState(target, holder)`. -/
def Isolate.newCallbackState (w : Isolate) (target holder : Addr) : Isolate × Addr :=
  ({ w with nextAddr := w.nextAddr + 1,
            callbackStates := Function.update w.callbackStates w.nextAddr
              (some { target_ := some target, holder_ := some holder, frees := 0 }) },
   w.nextAddr)

/-- Access to a `Persistent<Object>` record through a pointer: a fault when the
address was never allocated or the record has been deleted. -/
def Isolate.persistentAt (w : Isolate) (p : Addr) : Except Fault Persistent :=
  match w.persistents p with
  | none => .error .wildPointer
  | some r => if r.frees = 0 then .ok r else .error .useAfterFree

/-- Access to a `CallbackState` record through a pointer: a fault when the
address was never allocated or the record has been deleted. -/
def Isolate.stateAt (w : Isolate) (c : Addr) : Except Fault CallbackState :=
  match w.callbackStates c with
  | none => .error .wildPointer
  | some s => if s.frees = 0 then .ok s else .error .useAfterFree

/-- `p->SetWeak(parameter, callback, WeakCallbackType::kFinalizer)`. -/
def Isolate.SetWeak (w : Isolate) (p : Option Addr) (parameter : Addr) (callback : WeakCallback) :
    Except Fault Isolate := do
  let a ← nonNull p
  let r ← w.persistentAt a
  pure { w with persistents :=
    Function.update w.persistents a (some { r with weak := some (callback, parameter) }) }

/-- `p->Reset()`: the handle is released and becomes empty; its weak registration ends. -/
def Isolate.Reset (w : Isolate) (p : Option Addr) : Except Fault Isolate := do
  let a ← nonNull p
  let r ← w.persistentAt a
  pure { w with persistents :=
    Function.update w.persistents a (some { r with object := none, weak := none }) }

/-- `p->Get(isolate)` and `Local<Object>::New(isolate, *p)`: the referent, or an
empty local when the handle is empty. -/
def Isolate.Get (w : Isolate) (p : Option Addr) : Except Fault (Option ObjId) := do
  let a ← nonNull p
  let r ← w.persistentAt a
  pure r.object

/-- `delete p` for a `Persistent<Object>*`: deleting `nullptr` does nothing; every
other deletion is counted on the record. -/
def Isolate.deletePersistent (w : Isolate) (p : Option Addr) : Except Fault Isolate :=
  match p with
  | none => .ok w
  | some a =>
    match w.persistents a with
    | none => .error .wildPointer
    | some r =>
      let r := { r with frees := r.frees + 1 }
      pure { w with persistents := Function.update w.persistents a (some r) }

/-- `delete callbackState`: every deletion is counted on the record. -/
def Isolate.deleteState (w : Isolate) (c : Addr) : Except Fault Isolate :=
  match w.callbackStates c with
  | none => .error .wildPointer
  | some s =>
    let s := { s with frees := s.frees + 1 }
    pure { w with callbackStates := Function.update w.callbackStates c (some s) }

/-- `callbackState->target_ = v`. -/
def Isolate.setTarget_ (w : Isolate) (c : Addr) (v : Option Addr) : Except Fault Isolate := do
  let s ← w.stateAt c
  pure { w with callbackStates :=
    Function.update w.callbackStates c (some { s with target_ := v }) }

/-- `callbackState->holder_ = v`. -/
def Isolate.setHolder_ (w : Isolate) (c : Addr) (v : Option Addr) : Except Fault Isolate := do
  let s ← w.stateAt c
  pure { w with callbackStates :=
    Function.update w.callbackStates c (some { s with holder_ := v }) }

/-- `info.GetReturnValue().Set(local)`: an empty local leaves `undefined`. -/
def returnLocal (l : Option ObjId) : Value :=
  match l with
  | some o => .object o
  | none => .undefined

/-! ## The functions of `WeakRef.cpp` -/

/-- `WeakRef::GetGetterFunction`: the cached getter function, created on first use. -/
def GetGetterFunction (w : Isolate) : Isolate × ObjId :=
  match w.WeakRefGetterFunc with
  | some poGetter => (w, poGetter)
  | none =>
    let (w, getterFunc) := w.FunctionNew .GetCallback
    ({ w with WeakRefGetterFunc := some getterFunc }, getterFunc)

/-- `WeakRef::GetClearFunction`: the cached clear function, created on first use. -/
def GetClearFunction (w : Isolate) : Isolate × ObjId :=
  match w.WeakRefClearFunc with
  | some poClear => (w, poClear)
  | none =>
    let (w, clearFunc) := w.FunctionNew .ClearCallback
    ({ w with WeakRefClearFunc := some clearFunc }, clearFunc)

/-- `WeakRef::ConstructorCallback`. -/
def ConstructorCallback (w : Isolate) (info : FunctionCallbackInfo) :
    Except Fault (Isolate × Completion) := do
  Assert info.IsConstructCall
  if info.Length < 1 || !(info.arg 0).IsObject then
    -- throw NativeScriptException, caught below and rethrown to V8
    pure (w, .threw "Argument must be an object.")
  else
    match info.arg 0 with
    | .object target =>
      let (w, weakRef) := w.ObjectNew
      let (w, poTarget) := w.newPersistent target
      let (w, poHolder) := w.newPersistent weakRef
      let (w, callbackState) := w.newCallbackState poTarget poHolder
      let w ← w.SetWeak (some poTarget) callbackState .WeakTargetCallback
      let w ← w.SetWeak (some poHolder) callbackState .WeakHolderCallback
      let (w, getter) := GetGetterFunction w
      let w := w.Set weakRef "get" (.object getter)
      let (w, getter) := GetGetterFunction w
      let w := w.Set weakRef "deref" (.object getter)
      let (w, clear) := GetClearFunction w
      let w := w.Set weakRef "clear" (.object clear)
      let w ← w.SetPrivateValue (some weakRef) (some poTarget)
      pure (w, .returned (.object weakRef))
    | _ => .error .badCast

/-- `WeakRef::WeakTargetCallback`, with `data.GetParameter()` as argument. -/
def WeakTargetCallback (w : Isolate) (callbackState : Addr) : Except Fault Isolate := do
  let poTarget := (← w.stateAt callbackState).target_
  let w ← w.Reset poTarget
  let w ← w.deletePersistent poTarget
  let w ← w.setTarget_ callbackState none
  let poHolder := (← w.stateAt callbackState).holder_
  let w ←
    if poHolder != none then do
      let holder ← w.Get poHolder
      w.SetPrivateValue holder none
    else pure w
  if (← w.stateAt callbackState).holder_ == none then
    w.deleteState callbackState
  else pure w

/-- `WeakRef::WeakHolderCallback`, with `data.GetParameter()` as argument. -/
def WeakHolderCallback (w : Isolate) (callbackState : Addr) : Except Fault Isolate := do
  let poHolder := (← w.stateAt callbackState).holder_
  let holder ← w.Get poHolder
  let poTarget ← w.GetPrivateValue holder
  if poTarget != none then
    w.SetWeak poHolder callbackState .WeakHolderCallback
  else do
    let w ← w.Reset poHolder
    let w ← w.deletePersistent poHolder
    let w ← w.setHolder_ callbackState none
    if (← w.stateAt callbackState).target_ == none then
      w.deleteState callbackState
    else pure w

/-- `WeakRef::GetCallback`. -/
def GetCallback (w : Isolate) (info : FunctionCallbackInfo) :
    Except Fault (Isolate × Completion) := do
  let holder := info.This
  let poTarget ← w.GetPrivateValue (some holder)
  if poTarget != none then do
    let target ← w.Get poTarget
    pure (w, .returned (returnLocal target))
  else
    pure (w, .returned .null)

/-- `WeakRef::ClearCallback`. -/
def ClearCallback (w : Isolate) (info : FunctionCallbackInfo) :
    Except Fault (Isolate × Completion) := do
  let holder := info.This
  let w ← w.SetPrivateValue (some holder) none
  pure (w, .returned .undefined)

/-! ## Script calls and the collector -/

/-- The native function behind a function object. -/
def NativeCallback.invoke :
    NativeCallback → Isolate → FunctionCallbackInfo → Except Fault (Isolate × Completion)
  | .ConstructorCallback => tns.ConstructorCallback
  | .GetCallback => tns.GetCallback
  | .ClearCallback => tns.ClearCallback

/-- The script call `this.name()`: the property is looked up on the receiver and
the native callback behind the function object found there runs with the
receiver as `info.This()` and no arguments. -/
def callMethod (w : Isolate) (this : ObjId) (name : String) :
    Except Fault (Isolate × Completion) :=
  match w.properties this name with
  | some (.object f) =>
    match w.functions f with
    | some cb => cb.invoke w { IsConstructCall := false, This := this, args := [] }
    | none => pure (w, .threw "not a function")
  | _ => pure (w, .threw "not a function")

/-- The function a weak registration names. -/
def WeakCallback.invoke : WeakCallback → Isolate → Addr → Except Fault Isolate
  | .WeakTargetCallback => tns.WeakTargetCallback
  | .WeakHolderCallback => tns.WeakHolderCallback

/-- The collector takes the pending weak registration off the binding at `p`:
a registration is good for one invocation of its callback, and the binding is
weak again only if `SetWeak` is called on it anew. -/
def Isolate.takeRegistration (w : Isolate) (p : Addr) : Isolate :=
  match w.persistents p with
  | some r =>
    let r := { r with weak := none }
    { w with persistents := Function.update w.persistents p (some r) }
  | none => w

/-- The collector delivers the finalizer of the binding at `p`: possible only
while a weak registration is pending on it (`none` otherwise).  The delivery uses
the registration up, and the registered callback runs with the registered
parameter in the isolate in which the binding is no longer registered. -/
def finalize (w : Isolate) (p : Addr) : Option (Except Fault Isolate) :=
  match w.persistents p with
  | some r =>
    match r.weak with
    | some (callback, parameter) => some (callback.invoke (w.takeRegistration p) parameter)
    | none => none
  | none => none

/-- The records of one `WeakRef` instance. -/
structure Instance where
  target : ObjId
  holder : ObjId
  poTarget : Addr
  poHolder : Addr
  callbackState : Addr
  deriving DecidableEq, Repr

/-- A successful construction: the isolate after `new WeakRef(...)` together with
the instance it created (the target is `info[0]`, the holder is the returned
object, the three native records are the three allocations of the constructor in
their order). -/
def construct (w0 : Isolate) (info : FunctionCallbackInfo) : Option (Instance × Isolate) :=
  match info.arg 0, ConstructorCallback w0 info with
  | .object target, .ok (w, .returned (.object holder)) =>
    some ({ target := target, holder := holder, poTarget := w0.nextAddr,
            poHolder := w0.nextAddr + 1, callbackState := w0.nextAddr + 2 }, w)
  | _, _ => none

/-- The function cache of an isolate holds only what `GetGetterFunction` and
`GetClearFunction` put there: already allocated function objects backed by
`GetCallback` and `ClearCallback`. -/
def Isolate.cachesValid (w : Isolate) : Bool :=
  (match w.WeakRefGetterFunc with
   | some f => decide (f < w.nextObject) && w.functions f == some .GetCallback
   | none => true) &&
  (match w.WeakRefClearFunc with
   | some f => decide (f < w.nextObject) && w.functions f == some .ClearCallback
   | none => true)

/-- What can happen to an instance after construction: the three script calls on
the holder and the two finalizer deliveries of the collector. -/
inductive Op where
  | get
  | deref
  | clear
  | targetFinalizer
  | holderFinalizer
  deriving DecidableEq, Repr

/-- One operation on an instance.  `none`: the operation is not enabled (a
finalizer whose binding has no pending weak registration).  `some (.error f)`:
the operation runs into the native fault `f`. -/
def step (I : Instance) (w : Isolate) : Op → Option (Except Fault Isolate)
  | .get => some (Prod.fst <$> callMethod w I.holder "get")
  | .deref => some (Prod.fst <$> callMethod w I.holder "deref")
  | .clear => some (Prod.fst <$> callMethod w I.holder "clear")
  | .targetFinalizer => finalize w I.poTarget
  | .holderFinalizer => finalize w I.poHolder

/-- The value a script call on the holder returns. -/
def observe (w : Isolate) (I : Instance) (name : String) : Except Fault Completion :=
  Prod.snd <$> callMethod w I.holder name

/-- The states an instance can be in: those after its construction in an isolate
with a valid function cache, closed under the enabled operations that return. -/
inductive Reachable (I : Instance) : Isolate → Prop where
  | init (w0 : Isolate) (info : FunctionCallbackInfo) (w : Isolate) :
      w0.cachesValid = true → construct w0 info = some (I, w) → Reachable I w
  | step (w : Isolate) (op : Op) (w1 : Isolate) :
      Reachable I w → step I w op = some (.ok w1) → Reachable I w1

/-- Running a list of operations from a state; `none` when one of them is not
enabled or faults. -/
def run (I : Instance) (w : Isolate) : List Op → Option Isolate
  | [] => some w
  | op :: ops =>
    match step I w op with
    | some (.ok w1) => run I w1 ops
    | _ => none

/-! ## Observations on an instance -/

/-- A weak registration is pending on the binding at `p`, so the collector may
deliver its finalizer. -/
def registered (w : Isolate) (p : Addr) : Bool :=
  match w.persistents p with
  | some r => r.weak.isSome
  | none => false

/-- The binding at `p` has been retired: reset, unregistered and deleted exactly once. -/
def retiredAt (w : Isolate) (p : Addr) : Bool :=
  match w.persistents p with
  | some r => r.object.isNone && r.weak.isNone && r.frees == 1
  | none => false

/-- The shared `CallbackState` of the instance has been deleted exactly once. -/
def stateFreed (w : Isolate) (I : Instance) : Bool :=
  match w.callbackStates I.callbackState with
  | some s => s.frees == 1
  | none => false

/-- Nothing of the instance is left: both bindings retired and the shared state freed. -/
def tornDown (w : Isolate) (I : Instance) : Bool :=
  retiredAt w I.poTarget && retiredAt w I.poHolder && stateFreed w I

/-- The four states of the instance state machine, in the words of the
specification. -/
inductive MachineState where
  | Live
  | HolderPendingRetire
  | TargetGone
  | Done
  deriving DecidableEq, Repr

/-- The specification's description of each machine state: `Live` (both bindings
registered), `HolderPendingRetire` (holder re-armed, both bindings still
registered), `TargetGone` (target retired, holder still registered), `Done` (both
retired, shared state freed). -/
def MachineState.describes (I : Instance) (w : Isolate) : MachineState → Bool
  | .Live => registered w I.poTarget && registered w I.poHolder
  | .HolderPendingRetire => registered w I.poTarget && registered w I.poHolder
  | .TargetGone => retiredAt w I.poTarget && registered w I.poHolder
  | .Done => retiredAt w I.poTarget && retiredAt w I.poHolder && stateFreed w I

/-- The state of the instance is one of the four machine states. -/
def inMachine (I : Instance) (w : Isolate) : Bool :=
  MachineState.describes I w .Live || MachineState.describes I w .HolderPendingRetire ||
  MachineState.describes I w .TargetGone || MachineState.describes I w .Done

/-- The holder binding is retired while the target binding is still registered
and the shared state is not freed. -/
def holderGone (I : Instance) (w : Isolate) : Bool :=
  registered w I.poTarget && retiredAt w I.poHolder && !stateFreed w I

/-! ## Protocol phases

The contents of the four cells of an instance (the two binding records, the
shared state, the hidden slot of the holder) in each phase of the protocol. -/

/-- The target binding as the constructor registers it. -/
def Instance.targetBinding (I : Instance) : Persistent :=
  { object := some I.target, weak := some (.WeakTargetCallback, I.callbackState), frees := 0 }

/-- The holder binding as the constructor registers it. -/
def Instance.holderBinding (I : Instance) : Persistent :=
  { object := some I.holder, weak := some (.WeakHolderCallback, I.callbackState), frees := 0 }

/-- A binding record after `Reset()` and `delete`. -/
def retired : Persistent :=
  { object := none, weak := none, frees := 1 }

/-- Phases of the protocol, told apart by the contents of the cells. -/
inductive Phase where
  | live
  | cleared
  | targetGone
  | holderGone
  | done
  deriving DecidableEq, Repr

/-- The target binding record in each phase. -/
def Phase.poTarget (I : Instance) : Phase → Persistent
  | .live | .cleared | .holderGone => I.targetBinding
  | .targetGone | .done => retired

/-- The holder binding record in each phase. -/
def Phase.poHolder (I : Instance) : Phase → Persistent
  | .live | .cleared | .targetGone => I.holderBinding
  | .holderGone | .done => retired

/-- The shared state record in each phase. -/
def Phase.callbackState (I : Instance) : Phase → CallbackState
  | .live | .cleared => { target_ := some I.poTarget, holder_ := some I.poHolder, frees := 0 }
  | .targetGone => { target_ := none, holder_ := some I.poHolder, frees := 0 }
  | .holderGone => { target_ := some I.poTarget, holder_ := none, frees := 0 }
  | .done => { target_ := none, holder_ := none, frees := 1 }

/-- The pointer in the hidden slot of the holder in each phase. -/
def Phase.hidden (I : Instance) : Phase → Option Addr
  | .live => some I.poTarget
  | _ => none

/-- The phase an operation leads to; `none` when the operation is not enabled. -/
def Phase.next : Phase → Op → Option Phase
  | .live, .clear => some .cleared
  | .live, .targetFinalizer => some .targetGone
  | .live, _ => some .live
  | .cleared, .targetFinalizer => some .targetGone
  | .cleared, .holderFinalizer => some .holderGone
  | .cleared, _ => some .cleared
  | .targetGone, .targetFinalizer => none
  | .targetGone, .holderFinalizer => some .done
  | .targetGone, _ => some .targetGone
  | .holderGone, .targetFinalizer => some .done
  | .holderGone, .holderFinalizer => none
  | .holderGone, _ => some .holderGone
  | .done, .targetFinalizer => none
  | .done, .holderFinalizer => none
  | .done, _ => some .done

/-- The phase a list of operations leads to; `none` when one of them is not enabled. -/
def Phase.nexts : Phase → List Op → Option Phase
  | ph, [] => some ph
  | ph, op :: ops =>
    match ph.next op with
    | some ph1 => ph1.nexts ops
    | none => none

/-- The wiring the constructor leaves on the holder: `get` and `deref` name one
function object backed by `GetCallback`, `clear` one backed by `ClearCallback`;
the two binding records are distinct. -/
structure Wired (I : Instance) (w : Isolate) : Prop where
  distinct : I.poTarget ≠ I.poHolder
  getter : ∃ f, w.properties I.holder "get" = some (.object f) ∧
    w.properties I.holder "deref" = some (.object f) ∧ w.functions f = some .GetCallback
  clear : ∃ g, w.properties I.holder "clear" = some (.object g) ∧
    w.functions g = some .ClearCallback

/-- The instance is in phase `ph`: its cells hold exactly the contents of that phase. -/
structure InPhase (I : Instance) (w : Isolate) (ph : Phase) : Prop where
  wired : Wired I w
  poTarget : w.persistents I.poTarget = some (ph.poTarget I)
  poHolder : w.persistents I.poHolder = some (ph.poHolder I)
  callbackState : w.callbackStates I.callbackState = some (ph.callbackState I)
  hidden : w.privateTarget I.holder = some (ph.hidden I)

/-! ## A concrete instance -/

/-- An isolate with eight objects allocated and nothing else. -/
def demoPre : Isolate :=
  { Isolate.empty with nextObject := 8 }

/-- The call `new WeakRef(o7)`. -/
def demoInfo : FunctionCallbackInfo :=
  { IsConstructCall := true, This := 0, args := [.object 7] }

/-- The instance that call creates in `demoPre`. -/
def demoInstance : Instance :=
  { target := 7, holder := 8, poTarget := 0, poHolder := 1, callbackState := 2 }

/-- The isolate right after that call. -/
def demoIsolate : Isolate :=
  match construct demoPre demoInfo with
  | some (_, w) => w
  | none => demoPre

/-- The call `new WeakRef(o7, 1)`. -/
def demoTwoArgs : FunctionCallbackInfo :=
  { IsConstructCall := true, This := 0, args := [.object 7, .number 1] }

/-- The isolate after the construct call `info` in `demoPre`. -/
def demoAfterCall (info : FunctionCallbackInfo) : Isolate :=
  match ConstructorCallback demoPre info with
  | .ok (w, _) => w
  | .error _ => demoPre

/-- The isolate after the operations `ops` on the instance. -/
def demoAfter (ops : List Op) : Isolate :=
  (run demoInstance demoIsolate ops).getD demoIsolate


/-! ## The protocol invariant -/

theorem callMethod_of (w : Isolate) (this f : ObjId) (name : String) (cb : NativeCallback)
    (hp : w.properties this name = some (.object f)) (hf : w.functions f = some cb) :
    callMethod w this name =
      cb.invoke w { IsConstructCall := false, This := this, args := [] } := by
  simp [callMethod, hp, hf]

/-- Every operation moves an instance from phase to phase as `Phase.next` says:
a disabled operation cannot run, an enabled one returns without a fault. -/
theorem step_inPhase (I : Instance) (w : Isolate) (ph : Phase) (op : Op) (h : InPhase I w ph) :
    match ph.next op with
    | none => step I w op = none
    | some ph1 => ∃ w1, step I w op = some (.ok w1) ∧ InPhase I w1 ph1 := by
  obtain ⟨⟨hd, ⟨f, hg1, hg2, hg3⟩, ⟨g, hc1, hc2⟩⟩, h1, h2, h3, h4⟩ := h
  cases ph <;> cases op <;>
  simp only [Phase.poTarget, Phase.poHolder, Phase.callbackState, Phase.hidden,
    Phase.next] at h1 h2 h3 h4 ⊢ <;>
  simp [step, finalize, Isolate.takeRegistration, h1, h2, h3, h4, Instance.targetBinding,
    Instance.holderBinding, retired, WeakCallback.invoke, WeakTargetCallback, WeakHolderCallback, Isolate.stateAt, bind,
    Except.bind, Isolate.Reset, Isolate.deletePersistent, Isolate.setTarget_, Isolate.setHolder_,
    Isolate.Get, Isolate.SetPrivateValue, Isolate.GetPrivateValue, Isolate.SetWeak,
    Isolate.deleteState, Isolate.persistentAt, nonNull, pure, Except.pure,
    Function.update_noteq hd.symm, Function.update_noteq hd,
    callMethod_of _ _ _ _ _ hg1 hg3, callMethod_of _ _ _ _ _ hg2 hg3,
    callMethod_of _ _ _ _ _ hc1 hc2,
    NativeCallback.invoke, GetCallback, ClearCallback, Functor.map, Except.map] <;>
  (refine ⟨⟨hd, ⟨f, ?_, ?_, ?_⟩, ⟨g, ?_, ?_⟩⟩, ?_, ?_, ?_, ?_⟩ <;>
    simp [Phase.poTarget, Phase.poHolder, Phase.callbackState, Phase.hidden, h1, h2, h3, h4,
      hg1, hg2, hg3, hc1, hc2, Instance.targetBinding, Instance.holderBinding, retired,
      Function.update_noteq hd.symm, Function.update_noteq hd])

theorem arg_zero_object (info : FunctionCallbackInfo) (t : ObjId)
    (ha : info.arg 0 = .object t) : ¬ info.Length < 1 := by
  unfold FunctionCallbackInfo.arg FunctionCallbackInfo.Length at *
  cases h : info.args with
  | nil => simp [h] at ha
  | cons v rest => simp

/-- A construct call whose first argument is an object returns a fresh holder. -/
theorem ConstructorCallback_object (w0 : Isolate) (info : FunctionCallbackInfo) (t : ObjId)
    (hc : info.IsConstructCall = true) (ha : info.arg 0 = .object t) :
    ∃ w, ConstructorCallback w0 info = .ok (w, .returned (.object w0.nextObject)) := by
  have hl := arg_zero_object info t ha
  simp [ConstructorCallback, Assert, hc, ha, hl, Value.IsObject, Isolate.ObjectNew,
    Isolate.newPersistent, Isolate.newCallbackState, Isolate.SetWeak, Isolate.persistentAt,
    nonNull, bind, Except.bind, pure, Except.pure, Isolate.Set, Isolate.SetPrivateValue]

/-- With a valid function cache the constructor leaves the new instance in phase `live`. -/
theorem ConstructorCallback_inPhase (w0 : Isolate) (info : FunctionCallbackInfo) (t : ObjId)
    (hv : w0.cachesValid = true) (hc : info.IsConstructCall = true)
    (ha : info.arg 0 = .object t) :
    ∃ w, ConstructorCallback w0 info = .ok (w, .returned (.object w0.nextObject)) ∧
      InPhase { target := t, holder := w0.nextObject, poTarget := w0.nextAddr,
                poHolder := w0.nextAddr + 1, callbackState := w0.nextAddr + 2 } w .live := by
  have hl := arg_zero_object info t ha
  unfold Isolate.cachesValid at hv
  cases hg : w0.WeakRefGetterFunc <;> cases hcl : w0.WeakRefClearFunc <;>
  simp [hg, hcl] at hv <;>
  simp [ConstructorCallback, Assert, hc, ha, hl, Value.IsObject, Isolate.ObjectNew,
    Isolate.newPersistent, Isolate.newCallbackState, Isolate.SetWeak, Isolate.persistentAt,
    nonNull, bind, Except.bind, pure, Except.pure, GetGetterFunction, GetClearFunction,
    Isolate.FunctionNew, Isolate.Set, Isolate.SetPrivateValue, hg, hcl] <;>
  (refine ⟨⟨by simp, ?_, ?_⟩, ?_, ?_, ?_, ?_⟩ <;>
   simp [Phase.poTarget, Phase.poHolder, Phase.callbackState, Phase.hidden,
     Instance.targetBinding, Instance.holderBinding, hv]) <;>
  (rw [Function.update_noteq (Nat.ne_of_lt (Nat.lt_succ_of_lt hv.1))]; exact hv.2)

theorem ConstructorCallback_not_construct (w0 : Isolate) (info : FunctionCallbackInfo)
    (hc : info.IsConstructCall = false) :
    ConstructorCallback w0 info = .error .assertionFailed := by
  simp [ConstructorCallback, Assert, hc, bind, Except.bind]

theorem construct_inPhase (w0 : Isolate) (info : FunctionCallbackInfo) (I : Instance)
    (w : Isolate) (hv : w0.cachesValid = true) (h : construct w0 info = some (I, w)) :
    InPhase I w .live ∧ info.arg 0 = .object I.target ∧
      ConstructorCallback w0 info = .ok (w, .returned (.object I.holder)) := by
  unfold construct at h
  cases ha : info.arg 0 <;> simp [ha] at h
  rename_i t
  cases hc : info.IsConstructCall
  · simp [ConstructorCallback_not_construct w0 info hc] at h
  · obtain ⟨w1, h1, h2⟩ := ConstructorCallback_inPhase w0 info t hv hc ha
    simp [h1] at h
    obtain ⟨hI, hw⟩ := h
    subst hI hw
    exact ⟨h2, rfl, h1⟩

/-- The validity of the function cache is an invariant of the constructor: it
holds in the empty isolate and every construct call preserves it. -/
theorem cachesValid_ConstructorCallback (w0 : Isolate) (info : FunctionCallbackInfo)
    (w : Isolate) (c : Completion) (hv : w0.cachesValid = true)
    (h : ConstructorCallback w0 info = .ok (w, c)) : w.cachesValid = true := by
  cases hc : info.IsConstructCall
  · simp [ConstructorCallback_not_construct w0 info hc] at h
  · by_cases hg : info.Length < 1 ∨ (info.arg 0).IsObject = false
    · have : ConstructorCallback w0 info = .ok (w0, .threw "Argument must be an object.") := by
        rcases hg with hg | hg <;>
        simp [ConstructorCallback, Assert, hc, hg, bind, Except.bind, pure, Except.pure]
      rw [this] at h
      simp at h
      rw [← h.1]
      exact hv
    · simp only [not_or] at hg
      obtain ⟨hl, ho⟩ := hg
      cases ha : info.arg 0 <;> simp [ha, Value.IsObject] at ho
      unfold Isolate.cachesValid at hv
      cases hg : w0.WeakRefGetterFunc <;> cases hcl : w0.WeakRefClearFunc <;>
      simp [hg, hcl] at hv <;>
      simp [ConstructorCallback, Assert, hc, ha, hl, Value.IsObject, Isolate.ObjectNew,
        Isolate.newPersistent, Isolate.newCallbackState, Isolate.SetWeak, Isolate.persistentAt,
        nonNull, bind, Except.bind, pure, Except.pure, GetGetterFunction, GetClearFunction,
        Isolate.FunctionNew, Isolate.Set, Isolate.SetPrivateValue, hg, hcl] at h <;>
      obtain ⟨hw, _⟩ := h <;> subst hw <;>
      simp [Isolate.cachesValid, hv] <;>
      first
        | exact ⟨Nat.lt_succ_of_lt hv.1.1, Nat.lt_succ_of_lt hv.2.1⟩
        | (refine ⟨Nat.lt_succ_of_lt (Nat.lt_succ_of_lt hv.1), ?_⟩
           rw [Function.update_noteq (Nat.ne_of_lt (Nat.lt_succ_of_lt hv.1))]
           exact hv.2)

theorem reachable_inPhase (I : Instance) (w : Isolate) (h : Reachable I w) :
    ∃ ph, InPhase I w ph := by
  induction h with
  | init w0 info w hv hc => exact ⟨.live, (construct_inPhase w0 info I w hv hc).1⟩
  | step w op w1 _ hs ih =>
    obtain ⟨ph, hph⟩ := ih
    have := step_inPhase I w ph op hph
    cases hn : ph.next op with
    | none => simp [hn, hs] at this
    | some ph1 =>
      simp only [hn, hs] at this
      obtain ⟨w2, h2, h3⟩ := this
      simp at h2
      subst h2
      exact ⟨ph1, h3⟩

theorem step_ok_inPhase (I : Instance) (w w1 : Isolate) (ph : Phase) (op : Op)
    (h : InPhase I w ph) (hs : step I w op = some (.ok w1)) :
    ∃ ph1, ph.next op = some ph1 ∧ InPhase I w1 ph1 := by
  have := step_inPhase I w ph op h
  cases hn : ph.next op with
  | none => simp [hn, hs] at this
  | some ph1 =>
    simp only [hn, hs] at this
    obtain ⟨w2, h2, h3⟩ := this
    simp at h2
    subst h2
    exact ⟨ph1, rfl, h3⟩

theorem next_ne_live (ph ph1 : Phase) (op : Op) (h : ph.next op = some ph1) (hne : ph ≠ .live) :
    ph1 ≠ .live := by
  cases ph <;> cases op <;> simp_all [Phase.next] <;> subst h <;> simp

theorem run_inPhase (I : Instance) (ops : List Op) :
    ∀ (w w2 : Isolate) (ph : Phase), InPhase I w ph → run I w ops = some w2 →
      ∃ ph2, InPhase I w2 ph2 ∧ (ph ≠ .live → ph2 ≠ .live) := by
  induction ops with
  | nil =>
    intro w w2 ph h hr
    simp [run] at hr
    subst hr
    exact ⟨ph, h, id⟩
  | cons op ops ih =>
    intro w w2 ph h hr
    unfold run at hr
    cases hs : step I w op with
    | none => simp [hs] at hr
    | some r =>
      cases r with
      | error f => simp [hs] at hr
      | ok w1 =>
        simp only [hs] at hr
        obtain ⟨ph1, hn, h1⟩ := step_ok_inPhase I w w1 ph op h hs
        obtain ⟨ph2, h2, himp⟩ := ih w1 w2 ph1 h1 hr
        exact ⟨ph2, h2, fun hne => himp (next_ne_live ph ph1 op hn hne)⟩

theorem reachable_run (I : Instance) (ops : List Op) :
    ∀ (w w2 : Isolate), Reachable I w → run I w ops = some w2 → Reachable I w2 := by
  induction ops with
  | nil =>
    intro w w2 h hr
    simp [run] at hr
    subst hr
    exact h
  | cons op ops ih =>
    intro w w2 h hr
    unfold run at hr
    cases hs : step I w op with
    | none => simp [hs] at hr
    | some r =>
      cases r with
      | error f => simp [hs] at hr
      | ok w1 =>
        simp only [hs] at hr
        exact ih w1 w2 (Reachable.step w op w1 h hs) hr

/-- What `get` and `deref` return in each phase. -/
theorem callMethod_get_inPhase (I : Instance) (w : Isolate) (ph : Phase) (h : InPhase I w ph) :
    callMethod w I.holder "get" =
        .ok (w, .returned (if ph = .live then .object I.target else .null)) ∧
    callMethod w I.holder "deref" =
        .ok (w, .returned (if ph = .live then .object I.target else .null)) := by
  obtain ⟨⟨hd, ⟨f, hg1, hg2, hg3⟩, ⟨g, hc1, hc2⟩⟩, h1, h2, h3, h4⟩ := h
  cases ph <;>
  simp only [Phase.poTarget, Phase.poHolder, Phase.callbackState, Phase.hidden] at h1 h2 h3 h4 <;>
  simp [h1, h2, h3, h4, Instance.targetBinding, Isolate.Get, Isolate.GetPrivateValue,
    Isolate.persistentAt, nonNull, pure, Except.pure, bind, Except.bind,
    callMethod_of _ _ _ _ _ hg1 hg3, callMethod_of _ _ _ _ _ hg2 hg3,
    NativeCallback.invoke, GetCallback, returnLocal]

theorem demo_construct : construct demoPre demoInfo = some (demoInstance, demoIsolate) := rfl

theorem demo_reachable : Reachable demoInstance demoIsolate :=
  Reachable.init demoPre demoInfo demoIsolate rfl demo_construct

theorem demo_reachable_after (ops : List Op)
    (h : (run demoInstance demoIsolate ops).isSome = true) :
    Reachable demoInstance (demoAfter ops) := by
  cases hr : run demoInstance demoIsolate ops with
  | none => simp [hr] at h
  | some w =>
    have : demoAfter ops = w := by simp [demoAfter, hr]
    rw [this]
    exact reachable_run demoInstance ops demoIsolate w demo_reachable hr


/-! ## Safety of the shared finalization state -/

/-- C1: in every state reachable from a successful construction by any
interleaving of get/deref/clear calls and enabled finalizer deliveries, the shared
`CallbackState` is freed if and only if both its `target_` and its `holder_` side
are null; it is deleted at most once; no operation runs into a fault (an access to
the freed state is the fault `useAfterFree`); and once it is freed no finalizer
is enabled any more. -/
theorem shared_state_freed_iff_both_sides_null (I : Instance) (w : Isolate)
    (h : Reachable I w) :
    ∃ s, w.callbackStates I.callbackState = some s ∧
      (0 < s.frees ↔ s.target_ = none ∧ s.holder_ = none) ∧
      s.frees ≤ 1 ∧
      (∀ op f, step I w op ≠ some (.error f)) ∧
      (0 < s.frees →
        step I w .targetFinalizer = none ∧ step I w .holderFinalizer = none) := by
  obtain ⟨ph, hph⟩ := reachable_inPhase I w h
  refine ⟨ph.callbackState I, hph.callbackState, ?_, ?_, ?_, ?_⟩
  · cases ph <;> simp [Phase.callbackState]
  · cases ph <;> simp [Phase.callbackState]
  · intro op f hf
    have := step_inPhase I w ph op hph
    cases hn : ph.next op with
    | none => simp [hn, hf] at this
    | some ph1 => simp [hn, hf] at this
  · intro hfreed
    have ht := step_inPhase I w ph .targetFinalizer hph
    have hh := step_inPhase I w ph .holderFinalizer hph
    cases ph <;> simp [Phase.callbackState] at hfreed
    exact ⟨ht, hh⟩

/-- Witness for C1: the state after `clear`, the holder finalizer and the target finalizer. -/
theorem shared_state_freed_iff_both_sides_null_witness :
    Reachable demoInstance (demoAfter [.clear, .holderFinalizer, .targetFinalizer]) ∧
    ∃ s, (demoAfter [.clear, .holderFinalizer, .targetFinalizer]).callbackStates
          demoInstance.callbackState = some s ∧
      (0 < s.frees ↔ s.target_ = none ∧ s.holder_ = none) ∧
      s.frees ≤ 1 ∧
      (∀ op f, step demoInstance (demoAfter [.clear, .holderFinalizer, .targetFinalizer]) op
        ≠ some (.error f)) ∧
      (0 < s.frees →
        step demoInstance (demoAfter [.clear, .holderFinalizer, .targetFinalizer])
          .targetFinalizer = none ∧
        step demoInstance (demoAfter [.clear, .holderFinalizer, .targetFinalizer])
          .holderFinalizer = none) :=
  ⟨demo_reachable_after _ rfl,
   shared_state_freed_iff_both_sides_null demoInstance _ (demo_reachable_after _ rfl)⟩

/-- C2: in every reachable state, a non-empty hidden slot of the holder names the
target binding of the instance, and that record is not deleted and still refers
to the target, so `get` and `deref` return without resolving a deleted binding;
and whenever the `holder_` side of the shared state is non-null it names the holder
binding, which is not deleted, so the target finalizer resolves it without a fault. -/
theorem no_binding_resolved_after_retirement (I : Instance) (w : Isolate)
    (h : Reachable I w) :
    (∀ p, w.privateTarget I.holder = some (some p) →
      p = I.poTarget ∧
      ∃ r, w.persistents p = some r ∧ r.frees = 0 ∧ r.object = some I.target) ∧
    (∃ v, callMethod w I.holder "get" = .ok (w, .returned v)) ∧
    (∃ v, callMethod w I.holder "deref" = .ok (w, .returned v)) ∧
    (∀ s p, w.callbackStates I.callbackState = some s → s.holder_ = some p →
      p = I.poHolder ∧
      ∃ r, w.persistents p = some r ∧ r.frees = 0 ∧ r.object = some I.holder) ∧
    (∀ f, step I w .targetFinalizer ≠ some (.error f)) := by
  obtain ⟨ph, hph⟩ := reachable_inPhase I w h
  have hget := callMethod_get_inPhase I w ph hph
  refine ⟨?_, ⟨_, hget.1⟩, ⟨_, hget.2⟩, ?_, ?_⟩
  · intro p hp
    have h4 := hph.hidden
    have h1 := hph.poTarget
    cases ph <;> simp [Phase.hidden, hp] at h4
    subst h4
    exact ⟨rfl, _, h1, rfl, rfl⟩
  · intro s p hs hp
    have h3 := hph.callbackState
    have h2 := hph.poHolder
    rw [hs] at h3
    simp at h3
    subst h3
    cases ph <;> simp [Phase.callbackState] at hp <;> subst hp <;>
      exact ⟨rfl, _, h2, rfl, rfl⟩
  · intro f hf
    have := step_inPhase I w ph .targetFinalizer hph
    cases hn : ph.next .targetFinalizer with
    | none => simp [hn, hf] at this
    | some ph1 => simp [hn, hf] at this

/-- Witness for C2: the state after the holder finalizer re-armed once. -/
theorem no_binding_resolved_after_retirement_witness :
    Reachable demoInstance (demoAfter [.holderFinalizer]) ∧
    ((∀ p, (demoAfter [.holderFinalizer]).privateTarget demoInstance.holder = some (some p) →
      p = demoInstance.poTarget ∧
      ∃ r, (demoAfter [.holderFinalizer]).persistents p = some r ∧ r.frees = 0 ∧
        r.object = some demoInstance.target) ∧
    (∃ v, callMethod (demoAfter [.holderFinalizer]) demoInstance.holder "get" =
      .ok (demoAfter [.holderFinalizer], .returned v)) ∧
    (∃ v, callMethod (demoAfter [.holderFinalizer]) demoInstance.holder "deref" =
      .ok (demoAfter [.holderFinalizer], .returned v)) ∧
    (∀ s p, (demoAfter [.holderFinalizer]).callbackStates demoInstance.callbackState = some s →
      s.holder_ = some p →
      p = demoInstance.poHolder ∧
      ∃ r, (demoAfter [.holderFinalizer]).persistents p = some r ∧ r.frees = 0 ∧
        r.object = some demoInstance.holder) ∧
    (∀ f, step demoInstance (demoAfter [.holderFinalizer]) .targetFinalizer ≠
      some (.error f))) :=
  ⟨demo_reachable_after _ rfl,
   no_binding_resolved_after_retirement demoInstance _ (demo_reachable_after _ rfl)⟩

/-! ## The constructor -/

/-- C3: for every object `t`, the construct call `new WeakRef(t)` returns a holder,
and `get()` called on that holder right afterwards returns `t` itself. -/
theorem get_after_construction_returns_target (w0 : Isolate) (this t : ObjId)
    (hv : w0.cachesValid = true) :
    ∃ w holder,
      ConstructorCallback w0 { IsConstructCall := true, This := this, args := [.object t] } =
        .ok (w, .returned (.object holder)) ∧
      callMethod w holder "get" = .ok (w, .returned (.object t)) := by
  obtain ⟨w, h1, h2⟩ := ConstructorCallback_inPhase w0
    { IsConstructCall := true, This := this, args := [.object t] } t hv rfl rfl
  refine ⟨w, w0.nextObject, h1, ?_⟩
  have := (callMethod_get_inPhase _ w .live h2).1
  simpa using this

/-- Witness for C3: `new WeakRef(o7)` in an isolate with an empty function cache. -/
theorem get_after_construction_returns_target_witness :
    demoPre.cachesValid = true ∧
    ∃ w holder,
      ConstructorCallback demoPre { IsConstructCall := true, This := 0, args := [.object 7] } =
        .ok (w, .returned (.object holder)) ∧
      callMethod w holder "get" = .ok (w, .returned (.object 7)) :=
  ⟨rfl, get_after_construction_returns_target demoPre 0 7 rfl⟩

/-- C4: a construct call with no argument, or whose first argument is not an
object, throws "Argument must be an object." to the caller, returns no holder, and
leaves the isolate exactly as it was: no binding and no shared state is allocated. -/
theorem non_object_argument_rejected (w0 : Isolate) (info : FunctionCallbackInfo)
    (hc : info.IsConstructCall = true)
    (ha : info.args = [] ∨ ∃ v rest, info.args = v :: rest ∧ v.IsObject = false) :
    ConstructorCallback w0 info = .ok (w0, .threw "Argument must be an object.") ∧
    construct w0 info = none := by
  have hcb : ConstructorCallback w0 info = .ok (w0, .threw "Argument must be an object.") := by
    rcases ha with ha | ⟨v, rest, ha, hv⟩
    · simp [ConstructorCallback, Assert, hc, FunctionCallbackInfo.Length, ha, bind,
        Except.bind, pure, Except.pure]
    · simp [ConstructorCallback, Assert, hc, FunctionCallbackInfo.Length,
        FunctionCallbackInfo.arg, ha, hv, bind, Except.bind, pure, Except.pure]
  refine ⟨hcb, ?_⟩
  unfold construct
  rw [hcb]
  cases info.arg 0 <;> rfl

/-- Witness for C4: `new WeakRef(42)`. -/
theorem non_object_argument_rejected_witness :
    ConstructorCallback demoPre { IsConstructCall := true, This := 0, args := [.number 42] } =
      .ok (demoPre, .threw "Argument must be an object.") ∧
    construct demoPre { IsConstructCall := true, This := 0, args := [.number 42] } = none :=
  non_object_argument_rejected demoPre
    { IsConstructCall := true, This := 0, args := [.number 42] } rfl
    (Or.inr ⟨.number 42, [], rfl, rfl⟩)


/-- C5 fails as stated: the construct call `new WeakRef(o7, 1)` has two arguments
and returns a holder. -/
theorem constructor_accepts_extra_arguments :
    FunctionCallbackInfo.Length
      { IsConstructCall := true, This := 0, args := [.object 7, .number 1] } = 2 ∧
    Prod.snd <$> ConstructorCallback demoPre
      { IsConstructCall := true, This := 0, args := [.object 7, .number 1] } =
      .ok (.returned (.object 8)) :=
  ⟨rfl, rfl⟩

/-- C5 as amended: a construct call returns a holder if and only if it has at
least one argument and the first one is an object; every other construct call
throws "Argument must be an object." and leaves the isolate unchanged; and the
arguments after the first are ignored: the call does exactly what the call with
the first argument alone does (the same isolate and the same completion, so the
same holder weakly referencing the first argument). -/
theorem constructor_succeeds_iff_first_argument_object (w0 : Isolate)
    (info : FunctionCallbackInfo) (hc : info.IsConstructCall = true) :
    ((∃ w holder, ConstructorCallback w0 info = .ok (w, .returned (.object holder))) ↔
      (1 ≤ info.Length ∧ (info.arg 0).IsObject = true)) ∧
    (¬ (1 ≤ info.Length ∧ (info.arg 0).IsObject = true) →
      ConstructorCallback w0 info = .ok (w0, .threw "Argument must be an object.")) ∧
    (∀ v rest, info.args = v :: rest →
      ConstructorCallback w0 info = ConstructorCallback w0 { info with args := [v] }) := by
  have hfirst : ∀ v rest, info.args = v :: rest →
      ConstructorCallback w0 info = ConstructorCallback w0 { info with args := [v] } := by
    intro v rest ha
    simp [ConstructorCallback, FunctionCallbackInfo.Length, FunctionCallbackInfo.arg, ha]
  by_cases hg : 1 ≤ info.Length ∧ (info.arg 0).IsObject = true
  · refine ⟨⟨fun _ => hg, fun _ => ?_⟩, fun hn => absurd hg hn, hfirst⟩
    cases ha : info.arg 0 <;> simp [ha, Value.IsObject] at hg
    rename_i t
    obtain ⟨w, hw⟩ := ConstructorCallback_object w0 info t hc ha
    exact ⟨w, _, hw⟩
  · have hthrow : ConstructorCallback w0 info =
        .ok (w0, .threw "Argument must be an object.") := by
      by_cases hl : info.Length < 1
      · simp [ConstructorCallback, Assert, hc, hl, bind, Except.bind, pure, Except.pure]
      · have hobj : (info.arg 0).IsObject = false := by
          cases hv : (info.arg 0).IsObject
          · rfl
          · exact absurd ⟨Nat.le_of_not_lt hl, hv⟩ hg
        simp [ConstructorCallback, Assert, hc, hobj, bind, Except.bind, pure, Except.pure]
    refine ⟨⟨fun ⟨w, holder, hw⟩ => ?_, fun h => absurd h hg⟩, fun _ => hthrow, hfirst⟩
    rw [hthrow] at hw
    simp at hw

/-- Witness for the amended C5: `new WeakRef(o7, 1)` does what `new WeakRef(o7)`
does, and `get()` on the holder it returns gives `o7`. -/
theorem constructor_succeeds_iff_first_argument_object_witness :
    demoTwoArgs.IsConstructCall = true ∧
    Prod.snd <$> ConstructorCallback demoPre demoTwoArgs = .ok (.returned (.object 8)) ∧
    Prod.snd <$> callMethod (demoAfterCall demoTwoArgs) 8 "get" =
      .ok (.returned (.object 7)) ∧
    (((∃ w holder, ConstructorCallback demoPre demoTwoArgs =
        .ok (w, .returned (.object holder))) ↔
      (1 ≤ demoTwoArgs.Length ∧ (demoTwoArgs.arg 0).IsObject = true)) ∧
    (¬ (1 ≤ demoTwoArgs.Length ∧ (demoTwoArgs.arg 0).IsObject = true) →
      ConstructorCallback demoPre demoTwoArgs =
        .ok (demoPre, .threw "Argument must be an object.")) ∧
    (∀ v rest, demoTwoArgs.args = v :: rest →
      ConstructorCallback demoPre demoTwoArgs =
        ConstructorCallback demoPre { IsConstructCall := true, This := 0, args := [v] })) :=
  ⟨rfl, rfl, rfl, constructor_succeeds_iff_first_argument_object demoPre demoTwoArgs rfl⟩

/-! ## What the accessors observe -/

/-- C6: once the target finalizer has run on a reachable state, the hidden slot of
the holder is empty, and after any further operations `get()` and `deref()` return
null (with no further operation: right away).  This holds for every holder, in
particular for one whose binding is still registered, whether or not the holder
finalizer ran and re-armed before. -/
theorem get_null_after_target_finalizer (I : Instance) (w w1 : Isolate)
    (h : Reachable I w) (ht : step I w .targetFinalizer = some (.ok w1)) :
    w1.privateTarget I.holder = some none ∧
    ∀ ops w2, run I w1 ops = some w2 →
      observe w2 I "get" = .ok (.returned .null) ∧
      observe w2 I "deref" = .ok (.returned .null) := by
  obtain ⟨ph, hph⟩ := reachable_inPhase I w h
  obtain ⟨ph1, hn, h1⟩ := step_ok_inPhase I w w1 ph .targetFinalizer hph ht
  have hne : ph1 ≠ .live := by
    cases ph <;> simp [Phase.next] at hn <;> subst hn <;> simp
  refine ⟨?_, ?_⟩
  · have := h1.hidden
    cases ph1 <;> simp_all [Phase.hidden]
  · intro ops w2 hr
    obtain ⟨ph2, h2, himp⟩ := run_inPhase I ops w1 w2 ph1 h1 hr
    have hget := callMethod_get_inPhase I w2 ph2 h2
    simp [observe, hget.1, hget.2, himp hne, Functor.map, Except.map]

/-- Witness for C6: the holder finalizer re-arms and then the target finalizer
runs, the holder binding still registered. -/
theorem get_null_after_target_finalizer_witness :
    Reachable demoInstance (demoAfter [.holderFinalizer]) ∧
    step demoInstance (demoAfter [.holderFinalizer]) .targetFinalizer =
      some (.ok (demoAfter [.holderFinalizer, .targetFinalizer])) ∧
    registered (demoAfter [.holderFinalizer, .targetFinalizer]) demoInstance.poHolder = true ∧
    (demoAfter [.holderFinalizer, .targetFinalizer]).privateTarget demoInstance.holder =
      some none ∧
    ∀ ops w2, run demoInstance (demoAfter [.holderFinalizer, .targetFinalizer]) ops = some w2 →
      observe w2 demoInstance "get" = .ok (.returned .null) ∧
      observe w2 demoInstance "deref" = .ok (.returned .null) :=
  ⟨demo_reachable_after _ rfl, rfl, rfl,
   get_null_after_target_finalizer demoInstance (demoAfter [.holderFinalizer])
     (demoAfter [.holderFinalizer, .targetFinalizer])
     (demo_reachable_after [.holderFinalizer] rfl) rfl⟩

/-- C7: in every reachable state `clear()` returns, leaves the target binding
record (and so its registration) as it was, and empties the hidden slot; from then
on, after every sequence of operations, the slot is still empty and `get()` and
`deref()` return null.  More generally an empty hidden slot stays empty. -/
theorem clear_empties_slot_for_good (I : Instance) (w : Isolate) (h : Reachable I w) :
    (∃ w1, step I w .clear = some (.ok w1) ∧
      w1.persistents I.poTarget = w.persistents I.poTarget ∧
      w1.privateTarget I.holder = some none ∧
      ∀ ops w2, run I w1 ops = some w2 →
        w2.privateTarget I.holder = some none ∧
        observe w2 I "get" = .ok (.returned .null) ∧
        observe w2 I "deref" = .ok (.returned .null)) ∧
    (w.privateTarget I.holder = some none →
      ∀ ops w2, run I w ops = some w2 → w2.privateTarget I.holder = some none) := by
  obtain ⟨ph, hph⟩ := reachable_inPhase I w h
  have after : ∀ (w1 : Isolate) (ph1 : Phase), InPhase I w1 ph1 → ph1 ≠ .live →
      ∀ ops w2, run I w1 ops = some w2 →
        w2.privateTarget I.holder = some none ∧
        observe w2 I "get" = .ok (.returned .null) ∧
        observe w2 I "deref" = .ok (.returned .null) := by
    intro w1 ph1 h1 hne ops w2 hr
    obtain ⟨ph2, h2, himp⟩ := run_inPhase I ops w1 w2 ph1 h1 hr
    have hget := callMethod_get_inPhase I w2 ph2 h2
    have hh := h2.hidden
    have hne2 := himp hne
    refine ⟨?_, ?_, ?_⟩
    · cases ph2 <;> simp_all [Phase.hidden]
    · simp [observe, hget.1, hne2, Functor.map, Except.map]
    · simp [observe, hget.2, hne2, Functor.map, Except.map]
  refine ⟨?_, ?_⟩
  · have hs := step_inPhase I w ph .clear hph
    have hpt := hph.poTarget
    cases hn : ph.next .clear with
    | none => cases ph <;> simp [Phase.next] at hn
    | some ph1 =>
      simp only [hn] at hs
      obtain ⟨w1, hw1, h1⟩ := hs
      have hne : ph1 ≠ .live := by
        cases ph <;> simp [Phase.next] at hn <;> subst hn <;> simp
      refine ⟨w1, hw1, ?_, ?_, after w1 ph1 h1 hne⟩
      · rw [h1.poTarget, hpt]
        cases ph <;> simp [Phase.next] at hn <;> subst hn <;> rfl
      · have := h1.hidden
        cases ph1 <;> simp_all [Phase.hidden]
  · intro hempty ops w2 hr
    have hne : ph ≠ .live := by
      have := hph.hidden
      intro hl
      subst hl
      simp [Phase.hidden, hempty] at this
    exact (after w ph hph hne ops w2 hr).1

/-- Witness for C7: `clear()` right after construction, the target binding still
registered. -/
theorem clear_empties_slot_for_good_witness :
    Reachable demoInstance demoIsolate ∧
    registered (demoAfter [.clear]) demoInstance.poTarget = true ∧
    ((∃ w1, step demoInstance demoIsolate .clear = some (.ok w1) ∧
      w1.persistents demoInstance.poTarget = demoIsolate.persistents demoInstance.poTarget ∧
      w1.privateTarget demoInstance.holder = some none ∧
      ∀ ops w2, run demoInstance w1 ops = some w2 →
        w2.privateTarget demoInstance.holder = some none ∧
        observe w2 demoInstance "get" = .ok (.returned .null) ∧
        observe w2 demoInstance "deref" = .ok (.returned .null)) ∧
    (demoIsolate.privateTarget demoInstance.holder = some none →
      ∀ ops w2, run demoInstance demoIsolate ops = some w2 →
        w2.privateTarget demoInstance.holder = some none)) :=
  ⟨demo_reachable, rfl, clear_empties_slot_for_good demoInstance demoIsolate demo_reachable⟩


/-! ## Teardown and the instance state machine -/

theorem step_clear_inPhase (I : Instance) (w : Isolate) (ph : Phase) (h : InPhase I w ph) :
    step I w .clear = some (.ok
      { w with privateTarget := Function.update w.privateTarget I.holder (some none) }) := by
  obtain ⟨⟨_, _, ⟨g, hc1, hc2⟩⟩, _, _, _, _⟩ := h
  simp [step, callMethod_of _ _ _ _ _ hc1 hc2, NativeCallback.invoke, ClearCallback,
    Isolate.SetPrivateValue, bind, Except.bind, pure, Except.pure, Functor.map, Except.map]

theorem run_nexts (I : Instance) (ops : List Op) :
    ∀ (w : Isolate) (ph ph2 : Phase), InPhase I w ph → ph.nexts ops = some ph2 →
      ∃ w2, run I w ops = some w2 ∧ InPhase I w2 ph2 := by
  induction ops with
  | nil =>
    intro w ph ph2 h hn
    simp [Phase.nexts] at hn
    subst hn
    exact ⟨w, rfl, h⟩
  | cons op ops ih =>
    intro w ph ph2 h hn
    unfold Phase.nexts at hn
    have hs := step_inPhase I w ph op h
    cases hn1 : ph.next op with
    | none => simp [hn1] at hn
    | some ph1 =>
      simp only [hn1] at hn hs
      obtain ⟨w1, hw1, h1⟩ := hs
      obtain ⟨w2, hw2, h2⟩ := ih w1 ph1 ph2 h1 hn
      exact ⟨w2, by simp [run, hw1, hw2], h2⟩

theorem tornDown_of_done (I : Instance) (w : Isolate) (h : InPhase I w .done) :
    tornDown w I = true := by
  obtain ⟨_, h1, h2, h3, _⟩ := h
  simp [tornDown, retiredAt, stateFreed, h1, h2, h3, Phase.poTarget, Phase.poHolder,
    Phase.callbackState, retired]

theorem nexts_holder_passes (n : Nat) :
    Phase.live.nexts (List.replicate n Op.holderFinalizer ++
      [Op.targetFinalizer, Op.holderFinalizer]) = some .done := by
  induction n with
  | zero => rfl
  | succ n ih => simpa [List.replicate_succ, Phase.nexts, Phase.next] using ih

/-- C8: from a freshly constructed instance, (a) target finalizer then holder
finalizer, (b) holder finalizer (which re-arms) then target finalizer then holder
finalizer again, and (c) both finalizers of one cycle in either order (after holder
then target the re-armed holder pass is still pending and is (b)) each return and
end with both bindings retired and the shared state freed; and in every reachable
state in which the target finalizer has run (the target binding is no longer
registered), either everything is already torn down or one holder-finalizer
delivery retires the holder and frees the shared state.  A delivery uses the
registration of the holder binding up, and the pass after it is there because the
handler registers the binding again: the first holder pass leaves the holder
binding registered, and so does any number of holder passes before the target
finalizer, after which target finalizer and one more holder pass tear everything
down. -/
theorem every_finalization_order_tears_down (w0 : Isolate) (info : FunctionCallbackInfo)
    (I : Instance) (w : Isolate) (hv : w0.cachesValid = true)
    (hcons : construct w0 info = some (I, w)) :
    (∃ w2, run I w [.targetFinalizer, .holderFinalizer] = some w2 ∧ tornDown w2 I = true) ∧
    (∃ w2, run I w [.holderFinalizer, .targetFinalizer, .holderFinalizer] = some w2 ∧
      tornDown w2 I = true) ∧
    (∃ w2, run I w [.holderFinalizer, .targetFinalizer] = some w2 ∧
      registered w2 I.poHolder = true) ∧
    (∀ w1, Reachable I w1 → registered w1 I.poTarget = false →
      tornDown w1 I = true ∨
      ∃ w2, step I w1 .holderFinalizer = some (.ok w2) ∧ tornDown w2 I = true) ∧
    (registered (w.takeRegistration I.poHolder) I.poHolder = false ∧
      ∃ w1, WeakHolderCallback (w.takeRegistration I.poHolder) I.callbackState = .ok w1 ∧
        step I w .holderFinalizer = some (.ok w1) ∧ registered w1 I.poHolder = true) ∧
    (∀ n, ∃ w2, run I w (List.replicate n Op.holderFinalizer ++
        [Op.targetFinalizer, Op.holderFinalizer]) = some w2 ∧ tornDown w2 I = true) := by
  have hlive := (construct_inPhase w0 info I w hv hcons).1
  refine ⟨?_, ?_, ?_, ?_, ?_, ?_⟩
  · obtain ⟨w2, hr, h2⟩ := run_nexts I [.targetFinalizer, .holderFinalizer] w .live .done
      hlive rfl
    exact ⟨w2, hr, tornDown_of_done I w2 h2⟩
  · obtain ⟨w2, hr, h2⟩ := run_nexts I [.holderFinalizer, .targetFinalizer, .holderFinalizer]
      w .live .done hlive rfl
    exact ⟨w2, hr, tornDown_of_done I w2 h2⟩
  · obtain ⟨w2, hr, h2⟩ := run_nexts I [.holderFinalizer, .targetFinalizer] w .live
      .targetGone hlive rfl
    refine ⟨w2, hr, ?_⟩
    simp [registered, h2.poHolder, Phase.poHolder, Instance.holderBinding]
  · intro w1 hreach hreg
    obtain ⟨ph, hph⟩ := reachable_inPhase I w1 hreach
    have hs := step_inPhase I w1 ph .holderFinalizer hph
    have h1 := hph.poTarget
    cases ph <;>
      simp [registered, h1, Phase.poTarget, Instance.targetBinding, retired] at hreg
    · right
      simp only [Phase.next] at hs
      obtain ⟨w2, hw2, h2⟩ := hs
      exact ⟨w2, hw2, tornDown_of_done I w2 h2⟩
    · left
      exact tornDown_of_done I w1 hph
  · have hs := step_inPhase I w .live .holderFinalizer hlive
    simp only [Phase.next] at hs
    obtain ⟨w1, hw1, h1⟩ := hs
    have h2 := hlive.poHolder
    simp only [Phase.poHolder] at h2
    refine ⟨?_, w1, ?_, hw1, ?_⟩
    · simp [registered, Isolate.takeRegistration, h2]
    · simpa [step, finalize, h2, Instance.holderBinding, WeakCallback.invoke] using hw1
    · simp [registered, h1.poHolder, Phase.poHolder, Instance.holderBinding]
  · intro n
    obtain ⟨w2, hr, h2⟩ := run_nexts I _ w .live .done hlive (nexts_holder_passes n)
    exact ⟨w2, hr, tornDown_of_done I w2 h2⟩

/-- Witness for C8: the instance created by `new WeakRef(o7)`. -/
theorem every_finalization_order_tears_down_witness :
    demoPre.cachesValid = true ∧
    construct demoPre demoInfo = some (demoInstance, demoIsolate) ∧
    ((∃ w2, run demoInstance demoIsolate [.targetFinalizer, .holderFinalizer] = some w2 ∧
      tornDown w2 demoInstance = true) ∧
    (∃ w2, run demoInstance demoIsolate
        [.holderFinalizer, .targetFinalizer, .holderFinalizer] = some w2 ∧
      tornDown w2 demoInstance = true) ∧
    (∃ w2, run demoInstance demoIsolate [.holderFinalizer, .targetFinalizer] = some w2 ∧
      registered w2 demoInstance.poHolder = true) ∧
    (∀ w1, Reachable demoInstance w1 → registered w1 demoInstance.poTarget = false →
      tornDown w1 demoInstance = true ∨
      ∃ w2, step demoInstance w1 .holderFinalizer = some (.ok w2) ∧
        tornDown w2 demoInstance = true) ∧
    (registered (demoIsolate.takeRegistration demoInstance.poHolder) demoInstance.poHolder =
        false ∧
      ∃ w1, WeakHolderCallback (demoIsolate.takeRegistration demoInstance.poHolder)
          demoInstance.callbackState = .ok w1 ∧
        step demoInstance demoIsolate .holderFinalizer = some (.ok w1) ∧
        registered w1 demoInstance.poHolder = true) ∧
    (∀ n, ∃ w2, run demoInstance demoIsolate (List.replicate n Op.holderFinalizer ++
        [Op.targetFinalizer, Op.holderFinalizer]) = some w2 ∧
      tornDown w2 demoInstance = true)) :=
  ⟨rfl, rfl, every_finalization_order_tears_down demoPre demoInfo demoInstance demoIsolate
    rfl rfl⟩

/-- C9 fails as stated: after `clear()` and one holder-finalizer delivery the
holder binding is retired while the target binding is still registered, and the
state is none of Live, HolderPendingRetire, TargetGone and Done. -/
theorem holder_retired_while_target_registered :
    Reachable demoInstance (demoAfter [.clear, .holderFinalizer]) ∧
    registered (demoAfter [.clear, .holderFinalizer]) demoInstance.poTarget = true ∧
    retiredAt (demoAfter [.clear, .holderFinalizer]) demoInstance.poHolder = true ∧
    inMachine demoInstance (demoAfter [.clear, .holderFinalizer]) = false :=
  ⟨demo_reachable_after _ rfl, rfl, rfl, rfl⟩

/-- C9 as amended: every reachable state is one of the four machine states or the
fifth state in which the holder binding is retired while the target binding is
still registered and the shared state is not freed; the holder binding is retired
only when the hidden slot is empty; and `clear()` returns having changed neither a
binding record nor the shared state. -/
theorem reachable_states_classified (I : Instance) (w : Isolate) (h : Reachable I w) :
    (inMachine I w = true ∨ holderGone I w = true) ∧
    (retiredAt w I.poHolder = true → w.privateTarget I.holder = some none) ∧
    (∃ w1, step I w .clear = some (.ok w1) ∧ w1.persistents = w.persistents ∧
      w1.callbackStates = w.callbackStates) := by
  obtain ⟨ph, hph⟩ := reachable_inPhase I w h
  have hclear := step_clear_inPhase I w ph hph
  obtain ⟨_, h1, h2, h3, h4⟩ := hph
  refine ⟨?_, ?_, ⟨_, hclear, rfl, rfl⟩⟩
  · cases ph <;>
      simp [inMachine, MachineState.describes, holderGone, registered, retiredAt, stateFreed,
        h1, h2, h3, Phase.poTarget, Phase.poHolder, Phase.callbackState,
        Instance.targetBinding, Instance.holderBinding, retired]
  · cases ph <;>
      simp [retiredAt, h2, h4, Phase.poHolder, Phase.hidden, Instance.holderBinding, retired]

/-- Witness for the amended C9: the fifth state. -/
theorem reachable_states_classified_witness :
    Reachable demoInstance (demoAfter [.clear, .holderFinalizer]) ∧
    holderGone demoInstance (demoAfter [.clear, .holderFinalizer]) = true ∧
    ((inMachine demoInstance (demoAfter [.clear, .holderFinalizer]) = true ∨
      holderGone demoInstance (demoAfter [.clear, .holderFinalizer]) = true) ∧
    (retiredAt (demoAfter [.clear, .holderFinalizer]) demoInstance.poHolder = true →
      (demoAfter [.clear, .holderFinalizer]).privateTarget demoInstance.holder = some none) ∧
    (∃ w1, step demoInstance (demoAfter [.clear, .holderFinalizer]) .clear = some (.ok w1) ∧
      w1.persistents = (demoAfter [.clear, .holderFinalizer]).persistents ∧
      w1.callbackStates = (demoAfter [.clear, .holderFinalizer]).callbackStates)) :=
  ⟨demo_reachable_after _ rfl, rfl,
   reachable_states_classified demoInstance (demoAfter [.clear, .holderFinalizer])
     (demo_reachable_after _ rfl)⟩

/-- C10: `clear()` is idempotent: in every reachable state it returns, a second
`clear()` returns the very same state, and on a state whose hidden slot is already
empty it returns that state unchanged. -/
theorem clear_idempotent (I : Instance) (w : Isolate) (h : Reachable I w) :
    ∃ w1, step I w .clear = some (.ok w1) ∧ step I w1 .clear = some (.ok w1) ∧
      (w.privateTarget I.holder = some none → w1 = w) := by
  obtain ⟨ph, hph⟩ := reachable_inPhase I w h
  have hclear := step_clear_inPhase I w ph hph
  refine ⟨_, hclear, ?_, ?_⟩
  · obtain ⟨ph1, hph1⟩ := reachable_inPhase I _ (Reachable.step w .clear _ h hclear)
    rw [step_clear_inPhase I _ ph1 hph1]
    simp
  · intro hempty
    rw [← hempty, Function.update_eq_self]

/-- Witness for C10: `clear()` on a fresh instance and on an already cleared one. -/
theorem clear_idempotent_witness :
    Reachable demoInstance (demoAfter [.clear]) ∧
    (demoAfter [.clear]).privateTarget demoInstance.holder = some none ∧
    ∃ w1, step demoInstance (demoAfter [.clear]) .clear = some (.ok w1) ∧
      step demoInstance w1 .clear = some (.ok w1) ∧
      ((demoAfter [.clear]).privateTarget demoInstance.holder = some none →
        w1 = demoAfter [.clear]) :=
  ⟨demo_reachable_after _ rfl, rfl,
   clear_idempotent demoInstance (demoAfter [.clear]) (demo_reachable_after _ rfl)⟩

/-! ## Frame of the accessors and aliasing -/

/-- C11: in every reachable state `get()` and `deref()` return and leave the whole
isolate exactly as it was, and `clear()` returns an isolate that differs from the
one before in the hidden slot of the holder only: the binding records (with their
registrations) and the shared state (its two sides, its deletion count) are the
same. -/
theorem accessors_leave_shared_state_alone (I : Instance) (w : Isolate) (h : Reachable I w) :
    (∃ v, callMethod w I.holder "get" = .ok (w, .returned v)) ∧
    (∃ v, callMethod w I.holder "deref" = .ok (w, .returned v)) ∧
    step I w .get = some (.ok w) ∧
    step I w .deref = some (.ok w) ∧
    ∃ w1, step I w .clear = some (.ok w1) ∧
      w1 = { w with privateTarget := Function.update w.privateTarget I.holder (some none) } ∧
      w1.persistents = w.persistents ∧
      w1.callbackStates = w.callbackStates ∧
      (∀ o, o ≠ I.holder → w1.privateTarget o = w.privateTarget o) := by
  obtain ⟨ph, hph⟩ := reachable_inPhase I w h
  have hget := callMethod_get_inPhase I w ph hph
  refine ⟨⟨_, hget.1⟩, ⟨_, hget.2⟩, ?_, ?_, _, step_clear_inPhase I w ph hph, rfl, rfl, rfl, ?_⟩
  · simp [step, hget.1, Functor.map, Except.map]
  · simp [step, hget.2, Functor.map, Except.map]
  · intro o ho
    simp [Function.update_noteq ho]

/-- Witness for C11: the accessors on an instance whose holder finalizer re-armed once. -/
theorem accessors_leave_shared_state_alone_witness :
    Reachable demoInstance (demoAfter [.holderFinalizer]) ∧
    ((∃ v, callMethod (demoAfter [.holderFinalizer]) demoInstance.holder "get" =
      .ok (demoAfter [.holderFinalizer], .returned v)) ∧
    (∃ v, callMethod (demoAfter [.holderFinalizer]) demoInstance.holder "deref" =
      .ok (demoAfter [.holderFinalizer], .returned v)) ∧
    step demoInstance (demoAfter [.holderFinalizer]) .get =
      some (.ok (demoAfter [.holderFinalizer])) ∧
    step demoInstance (demoAfter [.holderFinalizer]) .deref =
      some (.ok (demoAfter [.holderFinalizer])) ∧
    ∃ w1, step demoInstance (demoAfter [.holderFinalizer]) .clear = some (.ok w1) ∧
      w1 =
        { demoAfter [.holderFinalizer] with
          privateTarget := Function.update (demoAfter [.holderFinalizer]).privateTarget
            demoInstance.holder (some none) } ∧
      w1.persistents = (demoAfter [.holderFinalizer]).persistents ∧
      w1.callbackStates = (demoAfter [.holderFinalizer]).callbackStates ∧
      (∀ o, o ≠ demoInstance.holder →
        w1.privateTarget o = (demoAfter [.holderFinalizer]).privateTarget o)) :=
  ⟨demo_reachable_after _ rfl,
   accessors_leave_shared_state_alone demoInstance (demoAfter [.holderFinalizer])
     (demo_reachable_after _ rfl)⟩

theorem GetGetterFunction_cached (w : Isolate) :
    GetGetterFunction (GetGetterFunction w).1 = GetGetterFunction w := by
  cases hg : w.WeakRefGetterFunc <;> simp [GetGetterFunction, hg, Isolate.FunctionNew]

/-- C12: `get` and `deref` are aliases.  `GetGetterFunction` hands out one cached
function object however often it is called; in every reachable state (the one
right after construction included) the properties `get` and `deref` of the holder
hold that same function object, which is backed by `GetCallback`; and the script
calls `holder.get()` and `holder.deref()` have the same result. -/
theorem get_and_deref_are_aliases (I : Instance) (w : Isolate) (h : Reachable I w) :
    (∀ w0, GetGetterFunction (GetGetterFunction w0).1 = GetGetterFunction w0) ∧
    (∃ f, w.properties I.holder "get" = some (.object f) ∧
      w.properties I.holder "deref" = some (.object f) ∧
      w.functions f = some .GetCallback) ∧
    callMethod w I.holder "get" = callMethod w I.holder "deref" ∧
    observe w I "get" = observe w I "deref" ∧
    ∃ v, observe w I "get" = .ok (.returned v) := by
  obtain ⟨ph, hph⟩ := reachable_inPhase I w h
  have hget := callMethod_get_inPhase I w ph hph
  refine ⟨GetGetterFunction_cached, hph.wired.getter, ?_, ?_, ?_⟩
  · rw [hget.1, hget.2]
  · simp [observe, hget.1, hget.2]
  · simp [observe, hget.1, Functor.map, Except.map]

/-- Witness for C12: the instance right after `new WeakRef(o7)`. -/
theorem get_and_deref_are_aliases_witness :
    Reachable demoInstance demoIsolate ∧
    observe demoIsolate demoInstance "deref" = .ok (.returned (.object 7)) ∧
    ((∀ w0, GetGetterFunction (GetGetterFunction w0).1 = GetGetterFunction w0) ∧
    (∃ f, demoIsolate.properties demoInstance.holder "get" = some (.object f) ∧
      demoIsolate.properties demoInstance.holder "deref" = some (.object f) ∧
      demoIsolate.functions f = some .GetCallback) ∧
    callMethod demoIsolate demoInstance.holder "get" =
      callMethod demoIsolate demoInstance.holder "deref" ∧
    observe demoIsolate demoInstance "get" = observe demoIsolate demoInstance "deref" ∧
    ∃ v, observe demoIsolate demoInstance "get" = .ok (.returned v)) :=
  ⟨demo_reachable, rfl, get_and_deref_are_aliases demoInstance demoIsolate demo_reachable⟩

/-! ## The two finalizer handlers -/

/-- C13: the holder finalizer handler, in every reachable state in which the holder
binding is registered.  The collector uses the registration up and runs
`WeakHolderCallback` with the shared state as parameter, so the handler starts
with the holder binding not registered.  If the hidden slot names a binding, the
handler returns with the holder binding registered against `WeakHolderCallback`
again, so that a further holder-finalizer delivery is enabled, and with
everything else as it was: the slot, the target binding, the shared state with
both sides and its deletion count; the isolate is again the one before the
delivery.  If the hidden slot is empty, the handler retires the holder binding,
nulls `holder_`, keeps `target_` and the slot, and deletes the shared state
exactly when `target_` is already null. -/
theorem holder_finalizer_rearms_or_retires (I : Instance) (w : Isolate)
    (h : Reachable I w) (hreg : registered w I.poHolder = true) :
    finalize w I.poHolder =
      some (WeakHolderCallback (w.takeRegistration I.poHolder) I.callbackState) ∧
    registered (w.takeRegistration I.poHolder) I.poHolder = false ∧
    ((∃ p, w.privateTarget I.holder = some (some p)) →
      ∃ w1 r, WeakHolderCallback (w.takeRegistration I.poHolder) I.callbackState = .ok w1 ∧
        w1.persistents I.poHolder = some r ∧
        r.weak = some (.WeakHolderCallback, I.callbackState) ∧
        r.object = some I.holder ∧ r.frees = 0 ∧
        registered w1 I.poHolder = true ∧
        finalize w1 I.poHolder ≠ none ∧
        w1.persistents I.poTarget = w.persistents I.poTarget ∧
        w1.privateTarget = w.privateTarget ∧
        w1.callbackStates = w.callbackStates ∧
        w1 = w) ∧
    (w.privateTarget I.holder = some none →
      ∃ w1 s s1, WeakHolderCallback (w.takeRegistration I.poHolder) I.callbackState = .ok w1 ∧
        w.callbackStates I.callbackState = some s ∧
        w1.callbackStates I.callbackState = some s1 ∧
        retiredAt w1 I.poHolder = true ∧
        registered w1 I.poHolder = false ∧
        s1.holder_ = none ∧ s1.target_ = s.target_ ∧ s.frees = 0 ∧
        (s.target_ = none → s1.frees = 1) ∧
        (s.target_ ≠ none → s1.frees = 0) ∧
        w1.persistents I.poTarget = w.persistents I.poTarget ∧
        w1.privateTarget = w.privateTarget) := by
  obtain ⟨ph, ⟨⟨hd, _, _⟩, h1, h2, h3, h4⟩⟩ := reachable_inPhase I w h
  cases ph <;>
  simp only [Phase.poTarget, Phase.poHolder, Phase.callbackState, Phase.hidden] at h1 h2 h3 h4 <;>
  simp [registered, h2, retired, Instance.holderBinding] at hreg <;>
  simp [finalize, Isolate.takeRegistration, registered, h1, h2, h3, h4, Instance.targetBinding,
    Instance.holderBinding, retired,
    retiredAt, WeakCallback.invoke, WeakHolderCallback, Isolate.stateAt, bind,
    Except.bind, Isolate.Reset, Isolate.deletePersistent, Isolate.setHolder_,
    Isolate.Get, Isolate.GetPrivateValue, Isolate.SetWeak,
    Isolate.deleteState, Isolate.persistentAt, nonNull, pure, Except.pure,
    Function.update_noteq hd.symm, Function.update_noteq hd]
  have hu := Function.update_eq_self I.poHolder w.persistents
  rw [h2] at hu
  simp only [Instance.holderBinding] at hu
  rw [hu]

/-- Witness for C13: the holder finalizer on a fresh instance whose hidden slot
names the target binding: the handler re-arms. -/
theorem holder_finalizer_rearms_or_retires_witness :
    Reachable demoInstance demoIsolate ∧
    registered demoIsolate demoInstance.poHolder = true ∧
    demoIsolate.privateTarget demoInstance.holder = some (some demoInstance.poTarget) ∧
    (finalize demoIsolate demoInstance.poHolder =
      some (WeakHolderCallback (demoIsolate.takeRegistration demoInstance.poHolder)
        demoInstance.callbackState) ∧
    registered (demoIsolate.takeRegistration demoInstance.poHolder) demoInstance.poHolder =
      false ∧
    ((∃ p, demoIsolate.privateTarget demoInstance.holder = some (some p)) →
      ∃ w1 r, WeakHolderCallback (demoIsolate.takeRegistration demoInstance.poHolder)
          demoInstance.callbackState = .ok w1 ∧
        w1.persistents demoInstance.poHolder = some r ∧
        r.weak = some (.WeakHolderCallback, demoInstance.callbackState) ∧
        r.object = some demoInstance.holder ∧ r.frees = 0 ∧
        registered w1 demoInstance.poHolder = true ∧
        finalize w1 demoInstance.poHolder ≠ none ∧
        w1.persistents demoInstance.poTarget = demoIsolate.persistents demoInstance.poTarget ∧
        w1.privateTarget = demoIsolate.privateTarget ∧
        w1.callbackStates = demoIsolate.callbackStates ∧
        w1 = demoIsolate) ∧
    (demoIsolate.privateTarget demoInstance.holder = some none →
      ∃ w1 s s1, WeakHolderCallback (demoIsolate.takeRegistration demoInstance.poHolder)
          demoInstance.callbackState = .ok w1 ∧
        demoIsolate.callbackStates demoInstance.callbackState = some s ∧
        w1.callbackStates demoInstance.callbackState = some s1 ∧
        retiredAt w1 demoInstance.poHolder = true ∧
        registered w1 demoInstance.poHolder = false ∧
        s1.holder_ = none ∧ s1.target_ = s.target_ ∧ s.frees = 0 ∧
        (s.target_ = none → s1.frees = 1) ∧
        (s.target_ ≠ none → s1.frees = 0) ∧
        w1.persistents demoInstance.poTarget = demoIsolate.persistents demoInstance.poTarget ∧
        w1.privateTarget = demoIsolate.privateTarget)) :=
  ⟨demo_reachable, rfl, rfl,
   holder_finalizer_rearms_or_retires demoInstance demoIsolate demo_reachable rfl⟩

/-- C14: the target finalizer handler, in every reachable state in which the target
binding is registered (the collector then delivers `WeakTargetCallback` with the
shared state as parameter).  The handler always retires the target binding, which
is then no longer registered, and nulls `target_`; it leaves the holder binding and
`holder_` as they were.  If the holder binding is still registered, it empties the
hidden slot and does not delete the shared state; if `holder_` is already null, it
leaves every hidden slot as it was and deletes the shared state. -/
theorem target_finalizer_retires_target (I : Instance) (w : Isolate)
    (h : Reachable I w) (hreg : registered w I.poTarget = true) :
    finalize w I.poTarget = some (WeakTargetCallback w I.callbackState) ∧
    ∃ w1 s s1, WeakTargetCallback w I.callbackState = .ok w1 ∧
      w.callbackStates I.callbackState = some s ∧
      w1.callbackStates I.callbackState = some s1 ∧
      retiredAt w1 I.poTarget = true ∧
      registered w1 I.poTarget = false ∧
      s1.target_ = none ∧ s1.holder_ = s.holder_ ∧ s.frees = 0 ∧
      w1.persistents I.poHolder = w.persistents I.poHolder ∧
      (registered w I.poHolder = true →
        w1.privateTarget I.holder = some none ∧ s1.frees = 0) ∧
      (s.holder_ = none → w1.privateTarget = w.privateTarget ∧ s1.frees = 1) ∧
      (registered w I.poHolder = true ∨ s.holder_ = none) := by
  obtain ⟨ph, ⟨⟨hd, _, _⟩, h1, h2, h3, h4⟩⟩ := reachable_inPhase I w h
  cases ph <;>
  simp only [Phase.poTarget, Phase.poHolder, Phase.callbackState, Phase.hidden] at h1 h2 h3 h4 <;>
  simp [registered, h1, retired, Instance.targetBinding] at hreg <;>
  simp [finalize, Isolate.takeRegistration, registered, h1, h2, h3, h4, Instance.targetBinding,
    Instance.holderBinding,
    retired, retiredAt, WeakCallback.invoke, WeakTargetCallback, Isolate.stateAt, bind,
    Except.bind, Isolate.Reset, Isolate.deletePersistent, Isolate.setTarget_,
    Isolate.Get, Isolate.SetPrivateValue,
    Isolate.deleteState, Isolate.persistentAt, nonNull, pure, Except.pure,
    Function.update_noteq hd.symm, Function.update_noteq hd]

/-- Witness for C14: the target finalizer after `clear()` and the retirement of
the holder: its free branch. -/
theorem target_finalizer_retires_target_witness :
    Reachable demoInstance (demoAfter [.clear, .holderFinalizer]) ∧
    registered (demoAfter [.clear, .holderFinalizer]) demoInstance.poTarget = true ∧
    (finalize (demoAfter [.clear, .holderFinalizer]) demoInstance.poTarget =
      some (WeakTargetCallback (demoAfter [.clear, .holderFinalizer])
        demoInstance.callbackState) ∧
    ∃ w1 s s1, WeakTargetCallback (demoAfter [.clear, .holderFinalizer])
        demoInstance.callbackState = .ok w1 ∧
      (demoAfter [.clear, .holderFinalizer]).callbackStates demoInstance.callbackState =
        some s ∧
      w1.callbackStates demoInstance.callbackState = some s1 ∧
      retiredAt w1 demoInstance.poTarget = true ∧
      registered w1 demoInstance.poTarget = false ∧
      s1.target_ = none ∧ s1.holder_ = s.holder_ ∧ s.frees = 0 ∧
      w1.persistents demoInstance.poHolder =
        (demoAfter [.clear, .holderFinalizer]).persistents demoInstance.poHolder ∧
      (registered (demoAfter [.clear, .holderFinalizer]) demoInstance.poHolder = true →
        w1.privateTarget demoInstance.holder = some none ∧ s1.frees = 0) ∧
      (s.holder_ = none →
        w1.privateTarget = (demoAfter [.clear, .holderFinalizer]).privateTarget ∧
        s1.frees = 1) ∧
      (registered (demoAfter [.clear, .holderFinalizer]) demoInstance.poHolder = true ∨
        s.holder_ = none)) :=
  ⟨demo_reachable_after _ rfl, rfl,
   target_finalizer_retires_target demoInstance (demoAfter [.clear, .holderFinalizer])
     (demo_reachable_after _ rfl) rfl⟩

/-! ## Executions without `clear` -/

theorem nexts_of_run (I : Instance) (ops : List Op) :
    ∀ (w w2 : Isolate) (ph : Phase), InPhase I w ph → run I w ops = some w2 →
      ∃ ph2, ph.nexts ops = some ph2 ∧ InPhase I w2 ph2 := by
  induction ops with
  | nil =>
    intro w w2 ph h hr
    simp [run] at hr
    subst hr
    exact ⟨ph, rfl, h⟩
  | cons op ops ih =>
    intro w w2 ph h hr
    unfold run at hr
    cases hs : step I w op with
    | none => simp [hs] at hr
    | some r =>
      cases r with
      | error f => simp [hs] at hr
      | ok w1 =>
        simp only [hs] at hr
        obtain ⟨ph1, hn, h1⟩ := step_ok_inPhase I w w1 ph op h hs
        obtain ⟨ph2, hn2, h2⟩ := ih w1 w2 ph1 h1 hr
        exact ⟨ph2, by simp [Phase.nexts, hn, hn2], h2⟩

/-- Without `clear` the phases `cleared` and `holderGone` are never entered. -/
theorem nexts_without_clear (ops : List Op) :
    ∀ (ph ph2 : Phase), Op.clear ∉ ops → (ph = .live ∨ ph = .targetGone ∨ ph = .done) →
      ph.nexts ops = some ph2 → (ph2 = .live ∨ ph2 = .targetGone ∨ ph2 = .done) := by
  induction ops with
  | nil =>
    intro ph ph2 _ hph hn
    simp [Phase.nexts] at hn
    subst hn
    exact hph
  | cons op ops ih =>
    intro ph ph2 hc hph hn
    simp only [List.mem_cons, not_or] at hc
    unfold Phase.nexts at hn
    cases hn1 : ph.next op with
    | none => simp [hn1] at hn
    | some ph1 =>
      simp only [hn1] at hn
      refine ih ph1 ph2 hc.2 ?_ hn
      have hne : Op.clear ≠ op := hc.1
      rcases hph with hph | hph | hph <;> subst hph <;> cases op <;>
        simp [Phase.next] at hn1 hne ⊢ <;> simp [← hn1]

/-- The phase `holderGone` is entered only by a holder-finalizer delivery that
follows a `clear`. -/
theorem nexts_holderGone (ops : List Op) :
    (Phase.live.nexts ops = some .holderGone →
      ∃ pre mid post, ops = pre ++ .clear :: (mid ++ .holderFinalizer :: post)) ∧
    (Phase.cleared.nexts ops = some .holderGone → Op.holderFinalizer ∈ ops) ∧
    Phase.targetGone.nexts ops ≠ some .holderGone ∧
    Phase.done.nexts ops ≠ some .holderGone := by
  induction ops with
  | nil => simp [Phase.nexts]
  | cons op ops ih =>
    obtain ⟨ihl, ihc, iht, ihd⟩ := ih
    refine ⟨?_, ?_, ?_, ?_⟩
    · intro hn
      cases op <;> simp [Phase.nexts, Phase.next] at hn
      · obtain ⟨pre, mid, post, h⟩ := ihl hn
        exact ⟨.get :: pre, mid, post, by simp [h]⟩
      · obtain ⟨pre, mid, post, h⟩ := ihl hn
        exact ⟨.deref :: pre, mid, post, by simp [h]⟩
      · obtain ⟨mid, post, h⟩ := List.append_of_mem (ihc hn)
        exact ⟨[], mid, post, by simp [h]⟩
      · exact absurd hn iht
      · obtain ⟨pre, mid, post, h⟩ := ihl hn
        exact ⟨.holderFinalizer :: pre, mid, post, by simp [h]⟩
    · intro hn
      cases op <;> simp [Phase.nexts, Phase.next] at hn ⊢
      · exact ihc hn
      · exact ihc hn
      · exact ihc hn
      · exact absurd hn iht
    · intro hn
      cases op <;> simp [Phase.nexts, Phase.next] at hn
      · exact iht hn
      · exact iht hn
      · exact iht hn
      · exact ihd hn
    · intro hn
      cases op <;> simp [Phase.nexts, Phase.next] at hn
      · exact ihd hn
      · exact ihd hn
      · exact ihd hn

/-- C15: take any execution from a construction.  If it contains no `clear()`,
then in its last state the holder binding is retired only if the target binding
is retired, a target-finalizer delivery does not free the shared state, and the
only operation that frees the shared state is the holder finalizer.  And in any
execution, if a target-finalizer delivery frees the shared state (the branch in
which `holder_` is already null), then a `clear()` and after it a holder-finalizer
delivery come before. -/
theorem without_clear_holder_retires_last (w0 : Isolate) (info : FunctionCallbackInfo)
    (I : Instance) (w : Isolate) (hv : w0.cachesValid = true)
    (hcons : construct w0 info = some (I, w)) (ops : List Op) (w2 : Isolate)
    (hr : run I w ops = some w2) :
    (Op.clear ∉ ops →
      (retiredAt w2 I.poHolder = true → retiredAt w2 I.poTarget = true) ∧
      (∀ w3, step I w2 .targetFinalizer = some (.ok w3) → stateFreed w3 I = false) ∧
      (∀ op w3, step I w2 op = some (.ok w3) → stateFreed w2 I = false →
        stateFreed w3 I = true → op = .holderFinalizer)) ∧
    (∀ w3, step I w2 .targetFinalizer = some (.ok w3) → stateFreed w3 I = true →
      ∃ pre mid post, ops = pre ++ .clear :: (mid ++ .holderFinalizer :: post)) := by
  have hlive := (construct_inPhase w0 info I w hv hcons).1
  obtain ⟨ph2, hn, h2⟩ := nexts_of_run I ops w w2 .live hlive hr
  have freed : ∀ (w3 : Isolate) (ph3 : Phase), InPhase I w3 ph3 →
      stateFreed w3 I = decide (ph3 = .done) := by
    intro w3 ph3 h3
    have := h3.callbackState
    cases ph3 <;> simp [stateFreed, this, Phase.callbackState]
  refine ⟨?_, ?_⟩
  · intro hc
    have hph := nexts_without_clear ops .live ph2 hc (Or.inl rfl) hn
    refine ⟨?_, ?_, ?_⟩
    · have hp1 := h2.poTarget
      have hp2 := h2.poHolder
      rcases hph with hph | hph | hph <;> subst hph <;>
        simp [retiredAt, hp1, hp2, Phase.poTarget, Phase.poHolder, retired,
          Instance.holderBinding]
    · intro w3 hs
      obtain ⟨ph3, hn3, h3⟩ := step_ok_inPhase I w2 w3 ph2 .targetFinalizer h2 hs
      rw [freed w3 ph3 h3]
      rcases hph with hph | hph | hph <;> subst hph <;> simp [Phase.next] at hn3
      subst hn3
      simp
    · intro op w3 hs hf2 hf3
      obtain ⟨ph3, hn3, h3⟩ := step_ok_inPhase I w2 w3 ph2 op h2 hs
      rw [freed w2 ph2 h2] at hf2
      rw [freed w3 ph3 h3] at hf3
      simp at hf2 hf3
      subst hf3
      rcases hph with hph | hph | hph <;> subst hph <;> cases op <;>
        simp [Phase.next] at hn3 hf2 ⊢
  · intro w3 hs hf3
    obtain ⟨ph3, hn3, h3⟩ := step_ok_inPhase I w2 w3 ph2 .targetFinalizer h2 hs
    rw [freed w3 ph3 h3] at hf3
    simp at hf3
    subst hf3
    have : ph2 = .holderGone := by
      cases ph2 <;> simp [Phase.next] at hn3 ⊢
    subst this
    exact (nexts_holderGone ops).1 hn

/-- Witness for C15: the execution holder finalizer, target finalizer without
`clear()`; and with `clear()` first the target finalizer does free the shared state. -/
theorem without_clear_holder_retires_last_witness :
    demoPre.cachesValid = true ∧
    construct demoPre demoInfo = some (demoInstance, demoIsolate) ∧
    run demoInstance demoIsolate [.holderFinalizer, .targetFinalizer] =
      some (demoAfter [.holderFinalizer, .targetFinalizer]) ∧
    Op.clear ∉ [Op.holderFinalizer, Op.targetFinalizer] ∧
    stateFreed (demoAfter [.clear, .holderFinalizer]) demoInstance = false ∧
    stateFreed (demoAfter [.clear, .holderFinalizer, .targetFinalizer]) demoInstance = true ∧
    ((Op.clear ∉ [Op.holderFinalizer, Op.targetFinalizer] →
      (retiredAt (demoAfter [.holderFinalizer, .targetFinalizer]) demoInstance.poHolder = true →
        retiredAt (demoAfter [.holderFinalizer, .targetFinalizer]) demoInstance.poTarget =
          true) ∧
      (∀ w3, step demoInstance (demoAfter [.holderFinalizer, .targetFinalizer])
          .targetFinalizer = some (.ok w3) → stateFreed w3 demoInstance = false) ∧
      (∀ op w3, step demoInstance (demoAfter [.holderFinalizer, .targetFinalizer]) op =
          some (.ok w3) →
        stateFreed (demoAfter [.holderFinalizer, .targetFinalizer]) demoInstance = false →
        stateFreed w3 demoInstance = true → op = .holderFinalizer)) ∧
    (∀ w3, step demoInstance (demoAfter [.holderFinalizer, .targetFinalizer])
        .targetFinalizer = some (.ok w3) → stateFreed w3 demoInstance = true →
      ∃ pre mid post, [Op.holderFinalizer, Op.targetFinalizer] =
        pre ++ .clear :: (mid ++ .holderFinalizer :: post))) :=
  ⟨rfl, rfl, rfl, by decide, rfl, rfl,
   without_clear_holder_retires_last demoPre demoInfo demoInstance demoIsolate rfl rfl
     [.holderFinalizer, .targetFinalizer] (demoAfter [.holderFinalizer, .targetFinalizer]) rfl⟩

end tns
